import Mathlib

/-!
Shallow embedding of `miner/bid_simulator.go` from the bsc-mev-validator
repository, together with proofs about the embedded operations.

Modelling conventions:
* `common.Hash` and `common.Address` become `Nat` identifiers.
* all monetary quantities (`*big.Int` fees and bribes, `uint256.Int`
  balances of the system sink address) are non-negative in every reachable
  state of the program and are modelled as `Nat`; `big.Int.Div` on
  non-negative operands is floor division, exactly `Nat.div`.
* Go `map`s become association lists (`List (key × value)`); an absent key
  is an absent entry, matching Go's distinction between a missing (nil)
  inner map and a present empty one.
* external collaborators (the block executor `core.ApplyTransaction`, the
  worker's `prepareWork`/`fillTransactions`, the consensus `Delay` query,
  channel occupancy) are oracle parameters of `simBid`; the file proves
  properties that hold for every oracle.
* channel effects (closing `finished`, `reportIssue`, recommits) are
  recorded as fields of the simulation result.
-/

namespace BidSim

/-! ## Association-list maps (Go `map` model) -/

/-- Lookup in an association-list map, the model of a Go map read. -/
def lookupA {α β : Type} [DecidableEq α] : List (α × β) → α → Option β
  | [], _ => none
  | (k, v) :: rest, a => if k = a then some v else lookupA rest a

/-- Insert/replace in an association-list map, the model of a Go map write. -/
def insertA {α β : Type} [DecidableEq α] : List (α × β) → α → β → List (α × β)
  | [], a, b => [(a, b)]
  | (k, v) :: rest, a, b => if k = a then (a, b) :: rest else (k, v) :: insertA rest a b

/-- Key removal, the model of Go `delete`. -/
def eraseA {α β : Type} [DecidableEq α] : List (α × β) → α → List (α × β)
  | [], _ => []
  | (k, v) :: rest, a => if k = a then eraseA rest a else (k, v) :: eraseA rest a

/-! ## Data model -/

/-- Hash identifiers (`common.Hash`). -/
abbrev Hash := Nat

/-- Account addresses (`common.Address`). -/
abbrev Address := Nat

/-- The observable part of a `types.Receipt`: `status = true` is
`types.ReceiptStatusSuccessful`, `false` is `types.ReceiptStatusFailed`. -/
structure Receipt where
  status : Bool
  blobGasUsed : Nat
  deriving DecidableEq

/-- A `types.Transaction` as consumed by the simulator: its hash, recipient,
value (`tx.Value()` may be nil in Go, hence `Option`; a valid transaction's
value is non-negative), blob classification with sidecar blob count
(`none` models a blob transaction whose sidecar is nil), and encoded size. -/
structure Tx where
  hash : Hash
  toAddr : Option Address
  value : Option Nat
  isBlobTx : Bool
  sidecarBlobs : Option Nat
  size : Nat
  deriving DecidableEq

/-- A `types.Bid`: the immutable builder-supplied payload.  The last element
of `txs` is the pay-bid transaction.  `unRevertible` is the set of
transaction hashes whose revert invalidates the bid. -/
structure Bid where
  builder : Address
  parentHash : Hash
  blockNumber : Nat
  txs : List Tx
  unRevertible : List Hash
  gasFee : Nat
  nontaxableFee : Nat
  gasUsed : Nat
  hash : Hash
  deriving DecidableEq

/-- The `environment` owned by a `BidRuntime` (defined in the surrounding
miner package): header fields actually read by the simulator, the gas pool
(`none` models a nil `*core.GasPool`), the balance of
`consensus.SystemAddress` in the mutable execution state (the only part of
the state the simulator reads directly), and the packing counters. -/
structure Env where
  headerGasLimit : Nat
  headerGasUsed : Nat
  headerBlobGasUsed : Nat
  coinbase : Address
  gasPool : Option Nat
  sysBalance : Nat
  tcount : Nat
  size : Nat
  blobs : Nat
  txs : List Tx
  receipts : List Receipt
  deriving DecidableEq

/-- `core.GasPool.SubGas`: subtract if possible, otherwise return
`ErrGasLimitReached` and leave the pool unchanged (the caller in
`simBid` ignores the error). -/
def subGas (g amt : Nat) : Nat := if g < amt then g else g - amt

/-- `core.GasPool.Gas()` on the pool of an environment (`none` never
reached at the call sites inside `simBid`). -/
def gasPoolGas (e : Env) : Nat := e.gasPool.getD 0

/-- `BidRuntime`: the per-bid mutable execution context.  The two packed
reward fields are nil pointers in Go until `updatePackReward` assigns them;
every read in the source happens after that assignment, so they are plain
`Nat` initialised to 0 here.  The `finished` channel and the measured
duration are tracked in the simulation result instead. -/
structure BidRuntime where
  bid : Bid
  env : Option Env
  packedBlockRewardPreBEP95Builder : Nat
  packedBlockRewardPreBEP95Final : Nat
  directBribe : Nat
  deriving DecidableEq

/-- `newBidRuntime`: fresh runtime for a newly arrived bid. -/
def newBidRuntime (bid : Bid) : BidRuntime :=
  { bid := bid
    env := none
    packedBlockRewardPreBEP95Builder := 0
    packedBlockRewardPreBEP95Final := 0
    directBribe := 0 }

/-! ## Reward arithmetic -/

/-- `calcRewardAfterBEP95`: multiply by 99 then integer-divide by 100
(`big.Int` arithmetic on non-negative operands is `Nat` arithmetic). -/
def calcRewardAfterBEP95 (preBEP95 : Nat) : Nat := preBEP95 * 99 / 100

/-- `BidRuntime.directBribeBNB`: returns (a copy of) the accumulated
direct bribe. -/
def BidRuntime.directBribeBNB (r : BidRuntime) : Nat := r.directBribe

/-- `BidRuntime.expectedRewardFromBuilder`: the claim the builder made,
post-burn gas fee plus the declared nontaxable fee. -/
def BidRuntime.expectedRewardFromBuilder (r : BidRuntime) : Nat :=
  calcRewardAfterBEP95 r.bid.gasFee + r.bid.nontaxableFee

/-- `BidRuntime.totalRewardFromBuilder`: post-burn packed builder reward
plus the accumulated direct bribe. -/
def BidRuntime.totalRewardFromBuilder (r : BidRuntime) : Nat :=
  calcRewardAfterBEP95 r.packedBlockRewardPreBEP95Builder + r.directBribeBNB

/-- `BidRuntime.blockReward`: post-burn packed final reward. -/
def BidRuntime.blockReward (r : BidRuntime) : Nat :=
  calcRewardAfterBEP95 r.packedBlockRewardPreBEP95Final

/-- `BidRuntime.totalReward`: full reward including greedy-merged
transactions. -/
def BidRuntime.totalReward (r : BidRuntime) : Nat :=
  r.blockReward + r.directBribeBNB

/-- `BidRuntime.isExpectedBetterThanSimulatingBid`. -/
def BidRuntime.isExpectedBetterThanSimulatingBid (r simBid : BidRuntime) : Bool :=
  decide (simBid.expectedRewardFromBuilder < r.expectedRewardFromBuilder)

/-- `BidRuntime.isExpectedBetterThanBestBid`. -/
def BidRuntime.isExpectedBetterThanBestBid (r bestBid : BidRuntime) : Bool :=
  decide (bestBid.totalRewardFromBuilder < r.expectedRewardFromBuilder)

/-- `BidRuntime.validReward`: the bribe must cover the declared nontaxable
fee and the packed builder balance must cover the declared gas fee. -/
def BidRuntime.validReward (r : BidRuntime) : Bool :=
  decide (r.bid.nontaxableFee ≤ r.directBribeBNB) &&
    decide (r.bid.gasFee ≤ r.packedBlockRewardPreBEP95Builder)

/-- `BidRuntime.checkValidatorBribe`: if the receipt succeeded, the
transaction has a recipient among the configured bribe EOAs and a positive
value, that value is added to `directBribe`. -/
def BidRuntime.checkValidatorBribe (r : BidRuntime) (acceptBribeEOAs : List Address)
    (tx : Tx) (receipt : Receipt) : BidRuntime :=
  if acceptBribeEOAs.length = 0 then r
  else
    match tx.toAddr, tx.value with
    | some toAddr, some v =>
      if receipt.status = true ∧ 0 < v ∧ toAddr ∈ acceptBribeEOAs then
        { r with directBribe := r.directBribe + v }
      else r
    | _, _ => r

/-- `BidRuntime.updatePackReward`: store the current system-address balance
into the final packed reward; on a raw bid also copy it into the builder
packed reward.  (Go dereferences `r.env`; it is non-nil at every call
site inside `simBid`, so the `none` branch is unreachable there.) -/
def BidRuntime.updatePackReward (r : BidRuntime) (isRawBid : Bool) : BidRuntime :=
  match r.env with
  | none => r
  | some env =>
    if isRawBid then
      { r with
        packedBlockRewardPreBEP95Final := env.sysBalance
        packedBlockRewardPreBEP95Builder := env.sysBalance }
    else
      { r with packedBlockRewardPreBEP95Final := env.sysBalance }

/-! ## Pending ledger -/

/-- `maxBidPerBuilderPerBlock`: the max bid number per builder. -/
def maxBidPerBuilderPerBlock : Nat := 3

/-- Set of bid hashes recorded for one builder in one block
(`map[common.Hash]struct{}`, kept duplicate-free by construction). -/
abbrev BidSet := List Hash

/-- Inner map `builder -> set of bid hashes`. -/
abbrev BuilderPending := List (Address × BidSet)

/-- The pending ledger `blockNumber -> builder -> bidHash -> struct{}`. -/
abbrev PendingMap := List (Nat × BuilderPending)

/-- The recorded bid-hash set for a `(blockNumber, builder)` pair, read
through the nested maps with Go's zero-value semantics for missing keys. -/
def pendingBids (pending : PendingMap) (blockNumber : Nat) (builder : Address) : BidSet :=
  (lookupA ((lookupA pending blockNumber).getD []) builder).getD []

/-- Whether the nested entry for `(blockNumber, builder)` exists, i.e. both
inner maps have been allocated. -/
def pendingEntryExists (pending : PendingMap) (blockNumber : Nat) (builder : Address) : Prop :=
  ∃ bm s, lookupA pending blockNumber = some bm ∧ lookupA bm builder = some s

instance (pending : PendingMap) (blockNumber : Nat) (builder : Address) :
    Decidable (pendingEntryExists pending blockNumber builder) := by
  unfold pendingEntryExists
  match h1 : lookupA pending blockNumber with
  | none => exact .isFalse (by simp)
  | some bm =>
    match h2 : lookupA bm builder with
    | none => exact .isFalse (by simp [h2])
    | some s => exact .isTrue ⟨bm, s, rfl, h2⟩

/-- `bidSimulator.CheckPending`: allocate the missing nested maps for the
block number and the builder, then reject a duplicate bid hash or a
builder that already has `maxBidPerBuilderPerBlock` recorded bids.
Returns the updated ledger together with the verdict. -/
def CheckPending (pending : PendingMap) (blockNumber : Nat) (builder : Address)
    (bidHash : Hash) : PendingMap × Option String :=
  let pending1 :=
    match lookupA pending blockNumber with
    | none => insertA pending blockNumber []
    | some _ => pending
  let bm0 := (lookupA pending1 blockNumber).getD []
  let bm1 :=
    match lookupA bm0 builder with
    | none => insertA bm0 builder []
    | some _ => bm0
  let pending2 := insertA pending1 blockNumber bm1
  let s := (lookupA bm1 builder).getD []
  if bidHash ∈ s then (pending2, some "bid already exists")
  else if maxBidPerBuilderPerBlock ≤ s.length then (pending2, some "too many bids")
  else (pending2, none)

/-- `bidSimulator.AddPending`: the unconditional nested write
`pending[blockNumber][builder][bidHash] = struct{}{}`.  When either nested
map is missing, Go reads a nil map and the assignment into it panics at
run time; that outcome is `none`. -/
def AddPending (pending : PendingMap) (blockNumber : Nat) (builder : Address)
    (bidHash : Hash) : Option PendingMap :=
  match lookupA pending blockNumber with
  | none => none
  | some bm =>
    match lookupA bm builder with
    | none => none
    | some s =>
      let s1 := if bidHash ∈ s then s else s ++ [bidHash]
      some (insertA pending blockNumber (insertA bm builder s1))

/-- Outcome of `bidSimulator.sendBid` as seen by the submitter. -/
inductive SendBidResult where
  | mevBusy
  | reply (e : Option String)
  | panicked
  deriving DecidableEq

/-- `bidSimulator.sendBid`: try to enqueue on `newBidCh` (success of the
send within the 1s timeout is the oracle `enqueueOk`), then immediately
call `AddPending` — with no prior `CheckPending` — and finally await the
arbiter's reply (`replyInTime` is the oracle for the second timeout).
If `AddPending` hits a missing nested map the goroutine panics. -/
def sendBid (pending : PendingMap) (enqueueOk : Bool) (bid : Bid)
    (replyFromLoop : Option String) (replyInTime : Bool) : PendingMap × SendBidResult :=
  if enqueueOk = false then (pending, .mevBusy)
  else
    match AddPending pending bid.blockNumber bid.builder bid.hash with
    | none => (pending, .panicked)
    | some pending1 =>
      if replyInTime then (pending1, .reply replyFromLoop) else (pending1, .mevBusy)

/-! ## Best-bid and simulating-bid tables -/

/-- `bestBid`: parent hash -> current winning runtime. -/
abbrev BestBidMap := List (Hash × BidRuntime)

/-- `simulatingBid`: parent hash -> runtime currently in simulation. -/
abbrev SimulatingMap := List (Hash × BidRuntime)

/-- `bidSimulator.GetBestBid`. -/
def GetBestBid (bestBid : BestBidMap) (prevBlockHash : Hash) : Option BidRuntime :=
  lookupA bestBid prevBlockHash

/-- `bidSimulator.SetBestBid`: discard the environment of the previous
entry (the Boolean records whether a non-nil environment was discarded),
then overwrite the entry. -/
def SetBestBid (bestBid : BestBidMap) (prevBlockHash : Hash) (bid : BidRuntime) :
    BestBidMap × Bool :=
  let lastEnvDiscarded :=
    match lookupA bestBid prevBlockHash with
    | some last => last.env.isSome
    | none => false
  (insertA bestBid prevBlockHash bid, lastEnvDiscarded)

/-- `bidSimulator.GetSimulatingBid`. -/
def GetSimulatingBid (simulatingBid : SimulatingMap) (prevBlockHash : Hash) :
    Option BidRuntime :=
  lookupA simulatingBid prevBlockHash

/-! ## Arbiter (newBidLoop) -/

/-- What the arbiter does with one arriving bid. -/
inductive NewBidOutcome where
  | dropped
  | committed (r : BidRuntime)
  | discarded (msg : String)
  deriving DecidableEq

/-- One iteration of `bidSimulator.newBidLoop` for an arriving bid:
skip silently when the engine is not running; otherwise build a fresh
runtime and compare with the simulating bid if one exists for the parent
hash, else with the best bid.  `committed` models the call to `commit`
(preemption signal plus enqueue on `simBidCh`); `discarded` carries the
reply error written to the feedback channel. -/
def newBidStep (running : Bool) (simulatingBid bestBid : Option BidRuntime)
    (bid : Bid) : NewBidOutcome :=
  if running = false then .dropped
  else
    let bidRuntime := newBidRuntime bid
    match simulatingBid with
    | some simBid =>
      if bidRuntime.isExpectedBetterThanSimulatingBid simBid then .committed bidRuntime
      else
        .discarded
          ("bid is discarded, current best is " ++
            toString simBid.expectedRewardFromBuilder ++ " [after BEP95]")
    | none =>
      match bestBid with
      | none => .committed bidRuntime
      | some best =>
        if bidRuntime.isExpectedBetterThanBestBid best then .committed bidRuntime
        else
          .discarded
            ("bid is discarded, current best is " ++
              toString best.totalRewardFromBuilder ++ " [after BEP95]")

/-! ## Transaction commitment -/

/-- Chain constants from the external `params` package (not part of this
repository's single source file); kept as parameters. -/
structure ChainParams where
  systemTxsGas : Nat
  payBidTxGasLimit : Nat
  blobTxBlobGasPerBlob : Nat
  maxBlobGasPerBlock : Nat
  maxMessageSize : Nat
  blockReserveSize : Nat
  deriving DecidableEq

/-- Oracle for `core.ApplyTransaction`, the external block executor: from
an environment and a transaction it yields an error or a receipt together
with the mutated environment (gas pool, state, header gas used). -/
abbrev ApplyFn := Env → Tx → Except String (Receipt × Env)

/-- `env.tcount` through the runtime (the Go field access
`bidRuntime.env.tcount`; the environment is non-nil at every use). -/
def BidRuntime.envTcount (r : BidRuntime) : Nat := (r.env.map Env.tcount).getD 0

/-- `env.size` through the runtime. -/
def BidRuntime.envSize (r : BidRuntime) : Nat := (r.env.map Env.size).getD 0

/-- `BidRuntime.commitTransaction`: blob sidecar checks, the external
apply, the unrevertible-failure check, then the bookkeeping appends and
counter updates on the environment.  (`SetTxContext` only tags the
execution state and has no observable effect in this model; the `none`
environment branch is a nil dereference in Go and unreachable inside
`simBid`, which assigns the environment first.) -/
def BidRuntime.commitTransaction (P : ChainParams) (applyTx : ApplyFn) (r : BidRuntime)
    (tx : Tx) (unRevertible : Bool) : Except String (Receipt × BidRuntime) :=
  match r.env with
  | none => .error "nil environment dereference"
  | some env =>
    let scCheck : Except String (Option Nat) :=
      if tx.isBlobTx then
        match tx.sidecarBlobs with
        | none => .error "blob transaction without blobs in miner"
        | some n =>
          if P.maxBlobGasPerBlock < (env.blobs + n) * P.blobTxBlobGasPerBlob then
            .error "max data blobs reached"
          else .ok (some n)
      else .ok none
    match scCheck with
    | .error e => .error e
    | .ok sc =>
      match applyTx env tx with
      | .error e => .error e
      | .ok (receipt, env1) =>
        if unRevertible = true ∧ receipt.status = false then
          .error "no revertible transaction failed"
        else
          let env2 :=
            match sc with
            | some n =>
              { env1 with
                txs := env1.txs ++ [tx]
                receipts := env1.receipts ++ [receipt]
                blobs := env1.blobs + n
                headerBlobGasUsed := env1.headerBlobGasUsed + receipt.blobGasUsed }
            | none =>
              { env1 with txs := env1.txs ++ [tx], receipts := env1.receipts ++ [receipt] }
          let env3 := { env2 with tcount := env2.tcount + 1, size := env2.size + tx.size }
          .ok (receipt, { r with env := some env3 })

/-! ## Simulator (simBid) -/

/-- The simulator's configuration and flags as read inside `simBid`. -/
structure SimConfig where
  running : Bool
  bidReceiving : Bool
  greedyMergeTx : Bool
  validatorBribeEOAs : List Address

/-- Oracles for everything `simBid` consumes from outside the bid
simulator: the worker's `prepareWork` and `fillTransactions`, the two
consensus `Delay` queries, the block executor, the channels polled in the
transaction loop (indexed by loop iteration), and whether `newBidCh` is
non-empty at the recommit points. -/
structure SimOracle where
  prepareWork : Except String Env
  delay1 : Option Int
  delay2 : Option Int
  applyTx : ApplyFn
  fillTransactions : Env → Env
  interruptAt : Nat → Bool
  exitAt : Nat → Bool
  newBidChNonEmpty : Bool

/-- The shared tables touched by `simBid`. -/
structure SimState where
  bestBid : BestBidMap
  simulatingBid : SimulatingMap
  deriving DecidableEq

/-- What the body of `simBid` (everything after the deferred cleanup is
installed) produces. -/
structure BodyOut where
  err : Option String
  success : Bool
  runtime : BidRuntime
  bestBid : BestBidMap
  oldBestEnvDiscarded : Bool
  recommit : Option Bid
  deriving DecidableEq

/-- The full observable outcome of one `simBid` call. -/
structure SimResult where
  state : SimState
  err : Option String
  success : Bool
  runtime : BidRuntime
  envDiscarded : Bool
  oldBestEnvDiscarded : Bool
  finishedClosed : Bool
  issueReported : Bool
  recommit : Option Bid
  ran : Bool
  panicked : Bool
  deriving DecidableEq

/-- The gas-pool initialisation at the top of the simulation: when the
prepared environment has no pool, allocate the header gas limit minus the
reserved system-transaction and pay-bid gas (each `SubGas` leaves the pool
unchanged on underflow, as `core.GasPool` does when its error is
ignored). -/
def initGasPool (P : ChainParams) (envP : Env) : Env :=
  match envP.gasPool with
  | none =>
    { envP with
      gasPool :=
        some (subGas (subGas envP.headerGasLimit P.systemTxsGas) P.payBidTxGasLimit) }
  | some _ => envP

/-- The transaction loop of `simBid`: per iteration poll the interrupt and
exit channels, stop before the pay-bid transaction (when `tcount` has
reached `bidTxLen - 1`), commit the transaction (wrapping any commit error
in the invalid-tx message) and account the validator bribe. -/
def commitBidTxs (P : ChainParams) (cfg : SimConfig) (o : SimOracle) (bidTxLen : Nat) :
    List Tx → Nat → BidRuntime → BidRuntime × Option String
  | [], _, r => (r, none)
  | tx :: rest, i, r =>
    if o.interruptAt i then (r, some "simulation abort due to better bid arrived")
    else if o.exitAt i then (r, some "miner exit")
    else if r.envTcount = bidTxLen - 1 then (r, none)
    else
      match r.commitTransaction P o.applyTx tx (decide (tx.hash ∈ r.bid.unRevertible)) with
      | .error e => (r, some ("invalid tx in bid, " ++ e))
      | .ok (receipt, r1) =>
        commitBidTxs P cfg o bidTxLen rest (i + 1)
          (r1.checkValidatorBribe cfg.validatorBribeEOAs tx receipt)

/-- The run condition "while replaying the bid's transactions, a
transaction whose hash is in the bid's unrevertible set produces a receipt
with failure status": the replay loop, started at iteration `i` with
runtime `r`, reaches some transaction of the unrevertible set whose
application yields a failed receipt.  At every iteration up to that point
the interrupt and exit channels are quiet and the pay-bid break has not
been taken; each earlier transaction commits successfully, and the failing
one passes the blob checks (otherwise a different error fires first). -/
def replayUnrevertibleFailure (P : ChainParams) (cfg : SimConfig) (o : SimOracle)
    (bidTxLen : Nat) : List Tx → Nat → BidRuntime → Prop
  | [], _, _ => False
  | tx :: rest, i, r =>
    o.interruptAt i = false ∧ o.exitAt i = false ∧ r.envTcount ≠ bidTxLen - 1 ∧
    ((tx.hash ∈ r.bid.unRevertible ∧
      ∃ env receipt env1, r.env = some env ∧
        (tx.isBlobTx = false ∨
          ∃ n, tx.sidecarBlobs = some n ∧
            ¬ P.maxBlobGasPerBlock < (env.blobs + n) * P.blobTxBlobGasPerBlob) ∧
        o.applyTx env tx = .ok (receipt, env1) ∧ receipt.status = false) ∨
     (∃ receipt r1,
        r.commitTransaction P o.applyTx tx (decide (tx.hash ∈ r.bid.unRevertible)) =
          .ok (receipt, r1) ∧
        replayUnrevertibleFailure P cfg o bidTxLen rest (i + 1)
          (r1.checkValidatorBribe cfg.validatorBribeEOAs tx receipt)))

/-- The body of `simBid` after `SetSimulatingBid`: prepare the work
environment, check the consensus delay, initialise the gas pool, replay
the bid transactions, validate the raw reward, optionally greedy-merge,
commit the pay-bid transaction, check the bid size, and finally compare
with and possibly replace the best bid. -/
def simBidBody (P : ChainParams) (cfg : SimConfig) (o : SimOracle) (bestBid0 : BestBidMap)
    (bidRuntime : BidRuntime) (payBidTx : Tx) : BodyOut :=
  let parentHash := bidRuntime.bid.parentHash
  let bidTxLen := bidRuntime.bid.txs.length
  match o.prepareWork with
  | .error e =>
    { err := some e, success := false, runtime := bidRuntime, bestBid := bestBid0
      oldBestEnvDiscarded := false, recommit := none }
  | .ok envP =>
    let r1 : BidRuntime := { bidRuntime with env := some envP }
    match o.delay1 with
    | none =>
      { err := none, success := false, runtime := r1, bestBid := bestBid0
        oldBestEnvDiscarded := false, recommit := none }
    | some d =>
      if d ≤ 0 then
        { err := none, success := false, runtime := r1, bestBid := bestBid0
          oldBestEnvDiscarded := false, recommit := none }
      else
        let env1 := initGasPool P envP
        let r2 : BidRuntime := { r1 with env := some env1 }
        if gasPoolGas env1 < bidRuntime.bid.gasUsed then
          { err := some "gas used exceeds gas limit", success := false, runtime := r2
            bestBid := bestBid0, oldBestEnvDiscarded := false, recommit := none }
        else
          match commitBidTxs P cfg o bidTxLen r2.bid.txs 0 r2 with
          | (r3, some e) =>
            { err := some e, success := false, runtime := r3, bestBid := bestBid0
              oldBestEnvDiscarded := false, recommit := none }
          | (r3, none) =>
            let r4 := r3.updatePackReward true
            if r4.validReward = false then
              { err := some "reward does not achieve the expectation", success := false
                runtime := r4, bestBid := bestBid0, oldBestEnvDiscarded := false
                recommit := none }
            else
              let r5 :=
                if cfg.greedyMergeTx then
                  match o.delay2 with
                  | some d2 =>
                    if 0 < d2 then
                      ({ r4 with env := r4.env.map o.fillTransactions } :
                          BidRuntime).updatePackReward false
                    else r4
                  | none => r4
                else r4
              let r6 : BidRuntime :=
                { r5 with
                  env := r5.env.map fun e =>
                    { e with gasPool := some (gasPoolGas e + P.payBidTxGasLimit) } }
              match r6.commitTransaction P o.applyTx payBidTx true with
              | .error e =>
                { err := some ("invalid tx in bid, " ++ e), success := false, runtime := r6
                  bestBid := bestBid0, oldBestEnvDiscarded := false, recommit := none }
              | .ok (_rcpt, r7) =>
                if P.maxMessageSize < r7.envSize + P.blockReserveSize then
                  { err := some "invalid bid size", success := false, runtime := r7
                    bestBid := bestBid0, oldBestEnvDiscarded := false, recommit := none }
                else
                  match GetBestBid bestBid0 parentHash with
                  | none =>
                    { err := none, success := true, runtime := r7
                      bestBid := (SetBestBid bestBid0 parentHash r7).1
                      oldBestEnvDiscarded := (SetBestBid bestBid0 parentHash r7).2
                      recommit := none }
                  | some bestB =>
                    if bestB.totalReward < r7.totalReward then
                      { err := none, success := true, runtime := r7
                        bestBid := (SetBestBid bestBid0 parentHash r7).1
                        oldBestEnvDiscarded := (SetBestBid bestBid0 parentHash r7).2
                        recommit := none }
                    else if o.newBidChNonEmpty then
                      { err := none, success := false, runtime := r7, bestBid := bestBid0
                        oldBestEnvDiscarded := false, recommit := none }
                    else
                      { err := none, success := false, runtime := r7, bestBid := bestBid0
                        oldBestEnvDiscarded := false, recommit := some bestB.bid }

/-- `bidSimulator.simBid`: the guard on the running/receiving flags, the
pay-bid extraction (`bidTxs[bidTxLen-1]` panics on an empty transaction
list), `SetSimulatingBid`, the body, and the deferred cleanup — discard a
non-nil environment unless the run succeeded, report an issue exactly when
the error is set, remove the simulating entry, close `finished`, and on
success recommit the bid itself when `newBidCh` is empty. -/
def simBid (P : ChainParams) (cfg : SimConfig) (o : SimOracle) (st : SimState)
    (bidRuntime : BidRuntime) : SimResult :=
  if cfg.running = false ∨ cfg.bidReceiving = false then
    { state := st, err := none, success := false, runtime := bidRuntime
      envDiscarded := false, oldBestEnvDiscarded := false, finishedClosed := false
      issueReported := false, recommit := none, ran := false, panicked := false }
  else
    match bidRuntime.bid.txs.getLast? with
    | none =>
      { state := st, err := none, success := false, runtime := bidRuntime
        envDiscarded := false, oldBestEnvDiscarded := false, finishedClosed := false
        issueReported := false, recommit := none, ran := true, panicked := true }
    | some payBidTx =>
      let parentHash := bidRuntime.bid.parentHash
      let sim1 := insertA st.simulatingBid parentHash bidRuntime
      let out := simBidBody P cfg o st.bestBid bidRuntime payBidTx
      { state := { bestBid := out.bestBid, simulatingBid := eraseA sim1 parentHash }
        err := out.err
        success := out.success
        runtime := out.runtime
        envDiscarded := out.runtime.env.isSome && (out.err.isSome || !out.success)
        oldBestEnvDiscarded := out.oldBestEnvDiscarded
        finishedClosed := true
        issueReported := out.err.isSome
        recommit :=
          if out.success then
            (if o.newBidChNonEmpty then none else some out.runtime.bid)
          else out.recommit
        ran := true
        panicked := false }

/-! ## Concrete sample inputs (used by the closed witness theorems) -/

/-- A plain non-blob transaction with hash 5. -/
def sampleTx : Tx :=
  { hash := 5, toAddr := none, value := none, isBlobTx := false, sidecarBlobs := none
    size := 10 }

/-- A plain pay-bid transaction with hash 6. -/
def samplePayTx : Tx :=
  { hash := 6, toAddr := none, value := none, isBlobTx := false, sidecarBlobs := none
    size := 10 }

/-- A bid with two transactions whose first transaction is unrevertible. -/
def sampleBid : Bid :=
  { builder := 1, parentHash := 2, blockNumber := 3, txs := [sampleTx, samplePayTx]
    unRevertible := [5], gasFee := 1000000, nontaxableFee := 10, gasUsed := 0, hash := 7 }

/-- A runtime that has completed raw packing with a valid reward. -/
def sampleRt : BidRuntime :=
  { bid := sampleBid, env := none
    packedBlockRewardPreBEP95Builder := 1000000
    packedBlockRewardPreBEP95Final := 1200000
    directBribe := 10 }

/-- A weak runtime: zero packed rewards and fees. -/
def weakRt : BidRuntime :=
  { bid := { builder := 4, parentHash := 2, blockNumber := 3, txs := [samplePayTx]
             unRevertible := [], gasFee := 0, nontaxableFee := 0, gasUsed := 0, hash := 8 }
    env := none
    packedBlockRewardPreBEP95Builder := 0
    packedBlockRewardPreBEP95Final := 0
    directBribe := 0 }

/-- A fresh environment as produced by `prepareWork`: nil gas pool, zero
counters. -/
def sampleEnv : Env :=
  { headerGasLimit := 1000000, headerGasUsed := 0, headerBlobGasUsed := 0, coinbase := 9
    gasPool := none, sysBalance := 2000000, tcount := 0, size := 0, blobs := 0
    txs := [], receipts := [] }

/-- Chain constants used in the concrete runs (their exact values are
irrelevant to every theorem below; these mirror the BSC mainnet ones). -/
def sampleParams : ChainParams :=
  { systemTxsGas := 5000, payBidTxGasLimit := 25000, blobTxBlobGasPerBlob := 131072
    maxBlobGasPerBlock := 786432, maxMessageSize := 10485760, blockReserveSize := 100000 }

/-- A running configuration without greedy merge or bribe EOAs. -/
def sampleCfg : SimConfig :=
  { running := true, bidReceiving := true, greedyMergeTx := false, validatorBribeEOAs := [] }

/-- An oracle whose executor always fails every transaction (receipt status
failed) and whose consensus delay is positive. -/
def failOracle : SimOracle :=
  { prepareWork := .ok sampleEnv, delay1 := some 1, delay2 := none
    applyTx := fun e _ => .ok ({ status := false, blobGasUsed := 0 }, e)
    fillTransactions := id, interruptAt := fun _ => false, exitAt := fun _ => false
    newBidChNonEmpty := false }

/-- An oracle with no consensus delay available. -/
def noDelayOracle : SimOracle :=
  { prepareWork := .ok sampleEnv, delay1 := none, delay2 := none
    applyTx := fun e _ => .ok ({ status := true, blobGasUsed := 0 }, e)
    fillTransactions := id, interruptAt := fun _ => false, exitAt := fun _ => false
    newBidChNonEmpty := false }

/-- A state whose best-bid table already holds `sampleRt` for parent 2. -/
def sampleState : SimState :=
  { bestBid := [(2, sampleRt)], simulatingBid := [] }

/-- A plain revertible transaction with hash 4. -/
def sampleTxA : Tx :=
  { hash := 4, toAddr := none, value := none, isBlobTx := false, sidecarBlobs := none
    size := 10 }

/-- A bid with three transactions whose unrevertible transaction sits in
the middle of the replay (position 1), after the revertible `sampleTxA`. -/
def laterFailBid : Bid :=
  { builder := 1, parentHash := 2, blockNumber := 3, txs := [sampleTxA, sampleTx, samplePayTx]
    unRevertible := [5], gasFee := 1000000, nontaxableFee := 10, gasUsed := 0, hash := 15 }

/-- A pending ledger where builder 7 has two bids recorded for block 100. -/
def samplePending : PendingMap := [(100, [(7, [11, 12])])]

/-- A pending ledger where builder 7 has three bids recorded for block
100, i.e. the builder's quota is exhausted. -/
def samplePendingFull : PendingMap := [(100, [(7, [11, 12, 13])])]

/-! ## Association-list lemmas -/

theorem lookupA_insertA_self {α β : Type} [DecidableEq α] (m : List (α × β)) (k : α) (v : β) :
    lookupA (insertA m k v) k = some v := by
  induction m with
  | nil => simp [insertA, lookupA]
  | cons hd tl ih =>
    obtain ⟨k0, v0⟩ := hd
    by_cases h : k0 = k
    · simp [insertA, lookupA, h]
    · simp [insertA, lookupA, h, ih]

theorem lookupA_insertA_ne {α β : Type} [DecidableEq α] (m : List (α × β)) (k a : α) (v : β)
    (h : a ≠ k) : lookupA (insertA m k v) a = lookupA m a := by
  have hk : k ≠ a := Ne.symm h
  induction m with
  | nil => simp [insertA, lookupA, hk]
  | cons hd tl ih =>
    obtain ⟨k0, v0⟩ := hd
    by_cases h0 : k0 = k
    · subst h0
      simp [insertA, lookupA, hk]
    · by_cases h1 : k0 = a
      · subst h1
        simp [insertA, lookupA, h0, h]
      · simp [insertA, lookupA, h0, h1, ih]

theorem lookupA_eraseA_self {α β : Type} [DecidableEq α] (m : List (α × β)) (k : α) :
    lookupA (eraseA m k) k = none := by
  induction m with
  | nil => simp [eraseA, lookupA]
  | cons hd tl ih =>
    obtain ⟨k0, v0⟩ := hd
    by_cases h : k0 = k <;> simp [eraseA, lookupA, h, ih]

theorem lookupA_eraseA_ne {α β : Type} [DecidableEq α] (m : List (α × β)) (k a : α)
    (h : a ≠ k) : lookupA (eraseA m k) a = lookupA m a := by
  have hk : k ≠ a := Ne.symm h
  induction m with
  | nil => simp [eraseA, lookupA]
  | cons hd tl ih =>
    obtain ⟨k0, v0⟩ := hd
    by_cases h0 : k0 = k
    · subst h0
      simp [eraseA, lookupA, hk, ih]
    · by_cases h1 : k0 = a
      · subst h1
        simp [eraseA, lookupA, h0, h]
      · simp [eraseA, lookupA, h0, h1, ih]

theorem eraseA_insertA_self {α β : Type} [DecidableEq α] (m : List (α × β)) (k : α) (v : β) :
    eraseA (insertA m k v) k = eraseA m k := by
  induction m with
  | nil => simp [insertA, eraseA]
  | cons hd tl ih =>
    obtain ⟨k0, v0⟩ := hd
    by_cases h : k0 = k <;> simp [insertA, eraseA, h, ih]

/-! ## Shared helper lemmas -/

theorem fst_ite_pair {γ δ : Type} (c1 c2 : Prop) [Decidable c1] [Decidable c2]
    (x y z : γ) (a b d : δ) :
    (if c1 then (x, a) else if c2 then (y, b) else (z, d)).1 =
      if c1 then x else if c2 then y else z := by
  by_cases hc1 : c1
  · simp [hc1]
  · by_cases hc2 : c2 <;> simp [hc1, hc2]

theorem snd_ite_pair {γ δ : Type} (c1 c2 : Prop) [Decidable c1] [Decidable c2]
    (x y z : γ) (a b d : δ) :
    (if c1 then (x, a) else if c2 then (y, b) else (z, d)).2 =
      if c1 then a else if c2 then b else d := by
  by_cases hc1 : c1
  · simp [hc1]
  · by_cases hc2 : c2 <;> simp [hc1, hc2]

/-- The ledger returned by `CheckPending`, independent of the verdict. -/
theorem CheckPending_fst (p : PendingMap) (bn : Nat) (bu : Address) (h : Hash) :
    (CheckPending p bn bu h).1 =
      match lookupA p bn with
      | none => insertA (insertA p bn []) bn [(bu, [])]
      | some bm =>
        match lookupA bm bu with
        | none => insertA p bn (insertA bm bu [])
        | some _ => insertA p bn bm := by
  unfold CheckPending
  match h1 : lookupA p bn with
  | none => simp [h1, lookupA, insertA, lookupA_insertA_self, fst_ite_pair, maxBidPerBuilderPerBlock]
  | some bm =>
    match h2 : lookupA bm bu with
    | none => simp [h1, h2, lookupA_insertA_self, fst_ite_pair, maxBidPerBuilderPerBlock]
    | some s => simp [h1, h2, fst_ite_pair]

/-- The verdict returned by `CheckPending`, in terms of the recorded set. -/
theorem CheckPending_snd (p : PendingMap) (bn : Nat) (bu : Address) (h : Hash) :
    (CheckPending p bn bu h).2 =
      (if h ∈ pendingBids p bn bu then some "bid already exists"
       else if maxBidPerBuilderPerBlock ≤ (pendingBids p bn bu).length then
         some "too many bids"
       else none) := by
  unfold CheckPending pendingBids
  match h1 : lookupA p bn with
  | none => simp [h1, lookupA, insertA, lookupA_insertA_self, snd_ite_pair, maxBidPerBuilderPerBlock]
  | some bm =>
    match h2 : lookupA bm bu with
    | none => simp [h1, h2, lookupA_insertA_self, snd_ite_pair, maxBidPerBuilderPerBlock]
    | some s => simp [h1, h2, snd_ite_pair]

/-- `CheckPending` always leaves the nested entry for its
`(blockNumber, builder)` pair allocated. -/
theorem CheckPending_creates_entry (p : PendingMap) (bn : Nat) (bu : Address) (h : Hash) :
    pendingEntryExists (CheckPending p bn bu h).1 bn bu := by
  match h1 : lookupA p bn with
  | none =>
    simp only [CheckPending_fst, h1]
    exact ⟨[(bu, [])], [], lookupA_insertA_self _ _ _, by simp [lookupA]⟩
  | some bm =>
    match h2 : lookupA bm bu with
    | none =>
      simp only [CheckPending_fst, h1, h2]
      exact ⟨insertA bm bu [], [], lookupA_insertA_self _ _ _, lookupA_insertA_self _ _ _⟩
    | some s =>
      simp only [CheckPending_fst, h1, h2]
      exact ⟨bm, s, lookupA_insertA_self _ _ _, h2⟩

/-! ## Claim theorems -/

/-- C3: the burn adjustment `calcRewardAfterBEP95` is exact integer
multiplication by 99 followed by integer division by 100, which is
`floor(x * 99 / 100)` for every non-negative `x` (characterised below by
the two floor inequalities), and it is exactly the function applied to the
gas fee in `expectedRewardFromBuilder`, to the packed builder reward in
`totalRewardFromBuilder`, and to the packed final reward in
`totalReward`. -/
theorem calcRewardAfterBEP95_spec :
    (∀ x : Nat, calcRewardAfterBEP95 x = x * 99 / 100) ∧
    (∀ x : Nat, 100 * calcRewardAfterBEP95 x ≤ x * 99 ∧
      x * 99 < 100 * (calcRewardAfterBEP95 x + 1)) ∧
    (∀ r : BidRuntime,
      r.expectedRewardFromBuilder = calcRewardAfterBEP95 r.bid.gasFee + r.bid.nontaxableFee) ∧
    (∀ r : BidRuntime,
      r.totalRewardFromBuilder =
        calcRewardAfterBEP95 r.packedBlockRewardPreBEP95Builder + r.directBribe) ∧
    (∀ r : BidRuntime,
      r.totalReward = calcRewardAfterBEP95 r.packedBlockRewardPreBEP95Final + r.directBribe) := by
  refine ⟨fun x => rfl, fun x => ?_, fun r => rfl, fun r => rfl, fun r => rfl⟩
  have h1 := Nat.div_add_mod (x * 99) 100
  have h2 : (x * 99) % 100 < 100 := Nat.mod_lt _ (by norm_num)
  unfold calcRewardAfterBEP95
  omega

/-- C4: every runtime passing `validReward` (bribe covers the declared
nontaxable fee, packed builder reward covers the declared gas fee) has
`totalRewardFromBuilder`, which equals the burn-adjusted packed builder
reward plus the direct bribe, at least the burn-adjusted declared gas fee
plus the declared nontaxable fee. -/
theorem validReward_total_ge_expected (r : BidRuntime) (h : r.validReward = true) :
    r.totalRewardFromBuilder =
        calcRewardAfterBEP95 r.packedBlockRewardPreBEP95Builder + r.directBribe ∧
    calcRewardAfterBEP95 r.bid.gasFee + r.bid.nontaxableFee ≤ r.totalRewardFromBuilder := by
  refine ⟨rfl, ?_⟩
  unfold BidRuntime.validReward BidRuntime.directBribeBNB at h
  simp only [Bool.and_eq_true, decide_eq_true_eq] at h
  obtain ⟨h1, h2⟩ := h
  unfold BidRuntime.totalRewardFromBuilder BidRuntime.directBribeBNB calcRewardAfterBEP95
  have h3 : r.bid.gasFee * 99 / 100 ≤ r.packedBlockRewardPreBEP95Builder * 99 / 100 :=
    Nat.div_le_div_right (Nat.mul_le_mul_right 99 h2)
  omega

/-- C4 witness: the theorem applied to `sampleRt`. -/
theorem validReward_total_ge_expected_witness :
    calcRewardAfterBEP95 sampleRt.bid.gasFee + sampleRt.bid.nontaxableFee ≤
      sampleRt.totalRewardFromBuilder :=
  (validReward_total_ge_expected sampleRt (by decide)).2

/-- C5: `CheckPending` returns the duplicate error exactly when the bid
hash is already recorded for the block and builder, otherwise the quota
error exactly when the builder already has `maxBidPerBuilderPerBlock = 3`
or more recorded hashes for the block, and otherwise no error; in
particular a builder with two recorded bids gets a third distinct bid
accepted, and a builder with three recorded bids gets a fourth distinct
bid rejected with the quota error. -/
theorem CheckPending_verdicts :
    (∀ p bn bu h, (CheckPending p bn bu h).2 =
        (if h ∈ pendingBids p bn bu then some "bid already exists"
         else if maxBidPerBuilderPerBlock ≤ (pendingBids p bn bu).length then
           some "too many bids"
         else none)) ∧
    (∀ p bn bu h, (pendingBids p bn bu).length = 2 → h ∉ pendingBids p bn bu →
        (CheckPending p bn bu h).2 = none) ∧
    (∀ p bn bu h, (pendingBids p bn bu).length = 3 → h ∉ pendingBids p bn bu →
        (CheckPending p bn bu h).2 = some "too many bids") := by
  refine ⟨CheckPending_snd, ?_, ?_⟩
  · intro p bn bu h hlen hmem
    simp [CheckPending_snd, hmem, hlen, maxBidPerBuilderPerBlock]
  · intro p bn bu h hlen hmem
    simp [CheckPending_snd, hmem, hlen, maxBidPerBuilderPerBlock]

/-- C5 witness: a third distinct bid passes on `samplePending` and a
fourth is rejected on `samplePendingFull`. -/
theorem CheckPending_verdicts_witness :
    (CheckPending samplePending 100 7 13).2 = none ∧
    (CheckPending samplePendingFull 100 7 14).2 = some "too many bids" :=
  ⟨CheckPending_verdicts.2.1 samplePending 100 7 13 (by decide) (by decide),
   CheckPending_verdicts.2.2 samplePendingFull 100 7 14 (by decide) (by decide)⟩

/-- C10: `CheckPending` is not read-only: it allocates the missing nested
entries for its block number and builder before deciding the verdict (an
empty builder map and an empty bid-hash set), the returned ledger is the
same whatever the verdict is, an already-present builder map is kept
as-is, and all other block numbers and builders are unchanged. -/
theorem CheckPending_allocates (p : PendingMap) (bn : Nat) (bu : Address) (h : Hash) :
    pendingEntryExists (CheckPending p bn bu h).1 bn bu ∧
    (lookupA p bn = none → lookupA (CheckPending p bn bu h).1 bn = some [(bu, [])]) ∧
    (∀ bm, lookupA p bn = some bm → lookupA bm bu = none →
      lookupA (CheckPending p bn bu h).1 bn = some (insertA bm bu [])) ∧
    (∀ bm s, lookupA p bn = some bm → lookupA bm bu = some s →
      lookupA (CheckPending p bn bu h).1 bn = some bm) ∧
    (∀ bn2, bn2 ≠ bn → lookupA (CheckPending p bn bu h).1 bn2 = lookupA p bn2) ∧
    (∀ bm bm2 bu2, lookupA p bn = some bm →
      lookupA (CheckPending p bn bu h).1 bn = some bm2 → bu2 ≠ bu →
      lookupA bm2 bu2 = lookupA bm bu2) := by
  refine ⟨CheckPending_creates_entry p bn bu h, ?_, ?_, ?_, ?_, ?_⟩
  · intro h1
    simp only [CheckPending_fst, h1]
    exact lookupA_insertA_self _ _ _
  · intro bm h1 h2
    simp only [CheckPending_fst, h1, h2]
    exact lookupA_insertA_self _ _ _
  · intro bm s h1 h2
    simp only [CheckPending_fst, h1, h2]
    exact lookupA_insertA_self _ _ _
  · intro bn2 hne
    match h1 : lookupA p bn with
    | none =>
      simp only [CheckPending_fst, h1]
      rw [lookupA_insertA_ne _ _ _ _ hne, lookupA_insertA_ne _ _ _ _ hne]
    | some bm =>
      match h2 : lookupA bm bu with
      | none =>
        simp only [CheckPending_fst, h1, h2]
        exact lookupA_insertA_ne _ _ _ _ hne
      | some s =>
        simp only [CheckPending_fst, h1, h2]
        exact lookupA_insertA_ne _ _ _ _ hne
  · intro bm bm2 bu2 h1 hl2 hne
    match h2 : lookupA bm bu with
    | none =>
      simp only [CheckPending_fst, h1, h2] at hl2
      rw [lookupA_insertA_self] at hl2
      injection hl2 with hh
      subst hh
      exact lookupA_insertA_ne _ _ _ _ hne
    | some s =>
      simp only [CheckPending_fst, h1, h2] at hl2
      rw [lookupA_insertA_self] at hl2
      injection hl2 with hh
      subst hh
      rfl

/-- C10 witness: the theorem applied to `samplePending` at block 100,
builder 8 (not yet present): the entry gets allocated while block 101
stays untouched. -/
theorem CheckPending_allocates_witness :
    pendingEntryExists (CheckPending samplePending 100 8 21).1 100 8 ∧
    lookupA (CheckPending samplePending 100 8 21).1 101 = lookupA samplePending 101 :=
  ⟨(CheckPending_allocates samplePending 100 8 21).1,
   (CheckPending_allocates samplePending 100 8 21).2.2.2.2.1 101 (by decide)⟩

/-- `AddPending` succeeds exactly when the nested `(blockNumber, builder)`
entry already exists; otherwise the Go assignment targets a nil map. -/
theorem AddPending_isSome_iff (p : PendingMap) (bn : Nat) (bu : Address) (h : Hash) :
    (AddPending p bn bu h).isSome = true ↔ pendingEntryExists p bn bu := by
  unfold AddPending pendingEntryExists
  match h1 : lookupA p bn with
  | none => simp
  | some bm =>
    match h2 : lookupA bm bu with
    | none => simp [h2]
    | some s => simp [h2]

/-- C9: `AddPending` executes without panicking exactly when the nested
entry for its block number and builder already exists (the write lands in
a nil map otherwise), the only operation that allocates those entries is
`CheckPending`, and `sendBid` — which calls `AddPending` right after the
channel send with no prior `CheckPending` — panics on the simulator's
initial empty ledger, and in general panics precisely when the entry is
absent. -/
theorem AddPending_nil_map_panic :
    (∀ p bn bu h, (AddPending p bn bu h).isSome = true ↔ pendingEntryExists p bn bu) ∧
    (∀ p bn bu h, pendingEntryExists (CheckPending p bn bu h).1 bn bu) ∧
    (∀ bid rf rt, (sendBid [] true bid rf rt).2 = SendBidResult.panicked) ∧
    (∀ p bid rf rt, (sendBid p true bid rf rt).2 = SendBidResult.panicked ↔
        ¬ pendingEntryExists p bid.blockNumber bid.builder) := by
  refine ⟨AddPending_isSome_iff, CheckPending_creates_entry, ?_, ?_⟩
  · intro bid rf rt
    rfl
  · intro p bid rf rt
    constructor
    · intro hp hex
      obtain ⟨q, hq⟩ := Option.isSome_iff_exists.mp
        ((AddPending_isSome_iff p bid.blockNumber bid.builder bid.hash).mpr hex)
      unfold sendBid at hp
      rw [hq] at hp
      simp at hp
      split at hp <;> simp at hp
    · intro hnex
      have hnone : AddPending p bid.blockNumber bid.builder bid.hash = none := by
        cases hA : AddPending p bid.blockNumber bid.builder bid.hash with
        | none => rfl
        | some q =>
          exact absurd ((AddPending_isSome_iff p bid.blockNumber bid.builder bid.hash).mp
            (by simp [hA])) hnex
      unfold sendBid
      rw [hnone]
      simp

/-- C9 witness: a successfully enqueued `sendBid` on the empty ledger
panics, derived through the general characterisation. -/
theorem AddPending_nil_map_panic_witness :
    (sendBid [] true sampleBid none true).2 = SendBidResult.panicked :=
  (AddPending_nil_map_panic.2.2.2 [] sampleBid none true).mpr (by decide)

/-- C1: the arbiter commits an arriving bid for simulation exactly when —
with a simulating bid present for the bid's parent hash — the new bid's
expected reward (burn-adjusted gas fee plus nontaxable fee) strictly
exceeds the simulating bid's expected reward, replying otherwise with a
discard error quoting the simulating bid's expected reward; and — with no
simulating bid — exactly when the best-bid table has no entry for the
parent hash or the expected reward strictly exceeds the best bid's
`totalRewardFromBuilder`, replying otherwise with a discard error quoting
that value. -/
theorem newBidLoop_decision (simulatingBid bestBid : Option BidRuntime) (bid : Bid) :
    (∀ s, simulatingBid = some s →
      (((newBidStep true simulatingBid bestBid bid = .committed (newBidRuntime bid)) ↔
          s.expectedRewardFromBuilder < calcRewardAfterBEP95 bid.gasFee + bid.nontaxableFee) ∧
        (¬ s.expectedRewardFromBuilder < calcRewardAfterBEP95 bid.gasFee + bid.nontaxableFee →
          newBidStep true simulatingBid bestBid bid =
            .discarded ("bid is discarded, current best is " ++
              toString s.expectedRewardFromBuilder ++ " [after BEP95]")))) ∧
    (simulatingBid = none →
      (((newBidStep true simulatingBid bestBid bid = .committed (newBidRuntime bid)) ↔
          (bestBid = none ∨ ∃ bb, bestBid = some bb ∧
            bb.totalRewardFromBuilder < calcRewardAfterBEP95 bid.gasFee + bid.nontaxableFee)) ∧
        (∀ bb, bestBid = some bb →
          ¬ bb.totalRewardFromBuilder < calcRewardAfterBEP95 bid.gasFee + bid.nontaxableFee →
          newBidStep true simulatingBid bestBid bid =
            .discarded ("bid is discarded, current best is " ++
              toString bb.totalRewardFromBuilder ++ " [after BEP95]")))) := by
  constructor
  · rintro s rfl
    constructor
    · by_cases hlt : s.expectedRewardFromBuilder <
          calcRewardAfterBEP95 bid.gasFee + bid.nontaxableFee
      · simp [newBidStep, BidRuntime.isExpectedBetterThanSimulatingBid,
          BidRuntime.expectedRewardFromBuilder, newBidRuntime, hlt]
      · simp [newBidStep, BidRuntime.isExpectedBetterThanSimulatingBid,
          BidRuntime.expectedRewardFromBuilder, newBidRuntime, hlt]
    · intro hnlt
      simp only [BidRuntime.expectedRewardFromBuilder] at hnlt
      simp [newBidStep, BidRuntime.isExpectedBetterThanSimulatingBid,
        BidRuntime.expectedRewardFromBuilder, newBidRuntime, hnlt]
  · rintro rfl
    constructor
    · cases hb : bestBid with
      | none => simp [newBidStep, hb]
      | some bb =>
        by_cases hlt : bb.totalRewardFromBuilder <
            calcRewardAfterBEP95 bid.gasFee + bid.nontaxableFee
        · simp [newBidStep, BidRuntime.isExpectedBetterThanBestBid,
            BidRuntime.expectedRewardFromBuilder, newBidRuntime, hlt]
        · simp [newBidStep, BidRuntime.isExpectedBetterThanBestBid,
            BidRuntime.expectedRewardFromBuilder, newBidRuntime, hlt]
    · intro bb hb hnlt
      subst hb
      simp [newBidStep, BidRuntime.isExpectedBetterThanBestBid,
        BidRuntime.expectedRewardFromBuilder, newBidRuntime, hnlt]

/-- C1 witness: with a weak simulating bid in flight, `sampleBid`
preempts it. -/
theorem newBidLoop_decision_witness :
    newBidStep true (some weakRt) none sampleBid = .committed (newBidRuntime sampleBid) :=
  (((newBidLoop_decision (some weakRt) none sampleBid).1 weakRt rfl).1).mpr (by decide)

/-- C8: `updatePackReward` always stores the current system-address
balance into the final packed reward; with `isRawBid = true` it also
copies that value into the builder packed reward, and with
`isRawBid = false` the builder packed reward is untouched — so after the
raw checkpoint and a later non-raw recalculation over a changed
environment, the builder packed reward still holds the checkpoint balance
while the final packed reward tracks the new balance.  The bid, the
environment and the direct bribe are never modified. -/
theorem updatePackReward_spec (r : BidRuntime) (env : Env) (isRawBid : Bool)
    (henv : r.env = some env) :
    ((r.updatePackReward isRawBid).packedBlockRewardPreBEP95Final = env.sysBalance) ∧
    (isRawBid = true →
      (r.updatePackReward isRawBid).packedBlockRewardPreBEP95Builder = env.sysBalance) ∧
    (isRawBid = false →
      (r.updatePackReward isRawBid).packedBlockRewardPreBEP95Builder =
        r.packedBlockRewardPreBEP95Builder) ∧
    (r.updatePackReward isRawBid).bid = r.bid ∧
    (r.updatePackReward isRawBid).env = r.env ∧
    (r.updatePackReward isRawBid).directBribe = r.directBribe ∧
    (∀ env2 : Env,
      (({ r.updatePackReward true with env := some env2 } :
          BidRuntime).updatePackReward false).packedBlockRewardPreBEP95Builder =
        env.sysBalance ∧
      (({ r.updatePackReward true with env := some env2 } :
          BidRuntime).updatePackReward false).packedBlockRewardPreBEP95Final =
        env2.sysBalance) := by
  cases isRawBid <;> simp [BidRuntime.updatePackReward, henv]

/-- C8 witness: the theorem applied to `sampleRt` with `sampleEnv`
installed. -/
theorem updatePackReward_spec_witness :
    (({ sampleRt with env := some sampleEnv } : BidRuntime).updatePackReward
        true).packedBlockRewardPreBEP95Final = sampleEnv.sysBalance :=
  (updatePackReward_spec { sampleRt with env := some sampleEnv } sampleEnv true rfl).1

/-- When the consensus delay is unavailable or non-positive the body of
`simBid` aborts with no error, no best-bid mutation and no recommit,
keeping the prepared environment inside the runtime. -/
theorem simBidBody_delay_abort (P : ChainParams) (cfg : SimConfig) (o : SimOracle)
    (bestBid0 : BestBidMap) (r0 : BidRuntime) (payBidTx : Tx) (env0 : Env)
    (hprep : o.prepareWork = .ok env0)
    (hdelay : o.delay1 = none ∨ ∃ d, o.delay1 = some d ∧ d ≤ 0) :
    simBidBody P cfg o bestBid0 r0 payBidTx =
      { err := none, success := false, runtime := { r0 with env := some env0 }
        bestBid := bestBid0, oldBestEnvDiscarded := false, recommit := none } := by
  rcases hdelay with hd | ⟨d, hd, hle⟩
  · simp only [simBidBody, hprep, hd]
  · simp only [simBidBody, hprep, hd]
    rw [if_pos hle]

/-- C6: when the consensus delay query returns nothing or a non-positive
duration, `simBid` returns with its error unset (so no issue is reported
to the builder) and without modifying the best-bid table; the only
effects are the removal of the parent hash's simulation-slot entry, the
discard of the prepared environment, and the closing of the finished
signal — and nothing is recommitted. -/
theorem simBid_insufficient_delay (P : ChainParams) (cfg : SimConfig) (o : SimOracle)
    (st : SimState) (r0 : BidRuntime) (env0 : Env)
    (hrun : cfg.running = true) (hrecv : cfg.bidReceiving = true)
    (htxs : r0.bid.txs ≠ [])
    (hprep : o.prepareWork = .ok env0)
    (hdelay : o.delay1 = none ∨ ∃ d, o.delay1 = some d ∧ d ≤ 0) :
    (simBid P cfg o st r0).err = none ∧
    (simBid P cfg o st r0).success = false ∧
    (simBid P cfg o st r0).state.bestBid = st.bestBid ∧
    (simBid P cfg o st r0).state.simulatingBid =
      eraseA st.simulatingBid r0.bid.parentHash ∧
    (simBid P cfg o st r0).envDiscarded = true ∧
    (simBid P cfg o st r0).finishedClosed = true ∧
    (simBid P cfg o st r0).issueReported = false ∧
    (simBid P cfg o st r0).recommit = none := by
  have hlast := List.getLast?_eq_getLast_of_ne_nil htxs
  have hcond : ¬ (cfg.running = false ∨ cfg.bidReceiving = false) := by
    simp [hrun, hrecv]
  have hbody := simBidBody_delay_abort P cfg o st.bestBid r0 (r0.bid.txs.getLast htxs)
    env0 hprep hdelay
  simp only [simBid, if_neg hcond, hlast, hbody]
  simp [eraseA_insertA_self]

/-- C6 witness: the theorem applied to a concrete run with no delay
available. -/
theorem simBid_insufficient_delay_witness :
    (simBid sampleParams sampleCfg noDelayOracle sampleState (newBidRuntime sampleBid)).err =
        none ∧
    (simBid sampleParams sampleCfg noDelayOracle sampleState
        (newBidRuntime sampleBid)).state.bestBid = sampleState.bestBid :=
  ⟨(simBid_insufficient_delay sampleParams sampleCfg noDelayOracle sampleState
      (newBidRuntime sampleBid) sampleEnv rfl rfl (by decide) rfl (Or.inl rfl)).1,
   (simBid_insufficient_delay sampleParams sampleCfg noDelayOracle sampleState
      (newBidRuntime sampleBid) sampleEnv rfl rfl (by decide) rfl (Or.inl rfl)).2.2.1⟩

/-- Through every path of the `simBid` body, an existing best-bid entry
for the bid's parent hash is either kept unchanged or replaced by the
finishing runtime, and replaced only when the finishing runtime's
`totalReward` strictly exceeds the existing entry's. -/
theorem simBidBody_bestBid_monotone (P : ChainParams) (cfg : SimConfig) (o : SimOracle)
    (bestBid0 : BestBidMap) (r0 : BidRuntime) (payBidTx : Tx) (old : BidRuntime)
    (hold : lookupA bestBid0 r0.bid.parentHash = some old) :
    lookupA (simBidBody P cfg o bestBid0 r0 payBidTx).bestBid r0.bid.parentHash =
        some old ∨
    ∃ fin, lookupA (simBidBody P cfg o bestBid0 r0 payBidTx).bestBid r0.bid.parentHash =
        some fin ∧ old.totalReward < fin.totalReward := by
  simp only [simBidBody]
  split
  · exact Or.inl hold
  · split
    · exact Or.inl hold
    · split
      · exact Or.inl hold
      · split
        · exact Or.inl hold
        · split
          · exact Or.inl hold
          · split
            · exact Or.inl hold
            · split
              · exact Or.inl hold
              · rename_i receipt7 r7 heq7
                split
                · exact Or.inl hold
                · split
                  · rename_i hbest
                    exfalso
                    simp only [GetBestBid] at hbest
                    rw [hold] at hbest
                    exact Option.noConfusion hbest
                  · rename_i bestB hbest
                    split
                    · rename_i hlt
                      have hbo : old = bestB := by
                        simp only [GetBestBid] at hbest
                        rw [hold] at hbest
                        exact Option.some.inj hbest
                      refine Or.inr ⟨r7, ?_, ?_⟩
                      · simp only [SetBestBid]
                        exact lookupA_insertA_self _ _ _
                      · rw [hbo]
                        exact hlt
                    · split
                      · exact Or.inl hold
                      · exact Or.inl hold

/-- C2: for a fixed parent hash, whenever a simulation run completes while
the best-bid table already holds an entry for that hash, the entry is
overwritten only by a runtime whose `totalReward` strictly exceeds the
current entry's `totalReward`, and is otherwise left unchanged — so the
entry's `totalReward` is strictly increasing across replacements. -/
theorem bestBid_strictly_increasing (P : ChainParams) (cfg : SimConfig) (o : SimOracle)
    (st : SimState) (r0 : BidRuntime) (old : BidRuntime)
    (hold : lookupA st.bestBid r0.bid.parentHash = some old) :
    lookupA (simBid P cfg o st r0).state.bestBid r0.bid.parentHash = some old ∨
    ∃ fin, lookupA (simBid P cfg o st r0).state.bestBid r0.bid.parentHash = some fin ∧
      old.totalReward < fin.totalReward := by
  unfold simBid
  split
  · exact Or.inl hold
  · split
    · exact Or.inl hold
    · rename_i payBidTx hlast
      exact simBidBody_bestBid_monotone P cfg o st.bestBid r0 payBidTx old hold

/-- C2 witness: the theorem applied to a concrete run against a table
holding `sampleRt`. -/
theorem bestBid_strictly_increasing_witness :
    lookupA (simBid sampleParams sampleCfg noDelayOracle sampleState
        (newBidRuntime sampleBid)).state.bestBid (newBidRuntime sampleBid).bid.parentHash =
      some sampleRt ∨
    ∃ fin, lookupA (simBid sampleParams sampleCfg noDelayOracle sampleState
        (newBidRuntime sampleBid)).state.bestBid (newBidRuntime sampleBid).bid.parentHash =
      some fin ∧ sampleRt.totalReward < fin.totalReward :=
  bestBid_strictly_increasing sampleParams sampleCfg noDelayOracle sampleState
    (newBidRuntime sampleBid) sampleRt rfl

/-- `commitTransaction` on an unrevertible transaction that passes the
blob checks and whose application yields a failed receipt returns exactly
the no-revertible error. -/
theorem commitTransaction_unrevertible_failed (P : ChainParams) (applyTx : ApplyFn)
    (r : BidRuntime) (tx : Tx) (env : Env) (receipt : Receipt) (env1 : Env)
    (henv : r.env = some env)
    (hblob : tx.isBlobTx = false ∨
      ∃ n, tx.sidecarBlobs = some n ∧
        ¬ P.maxBlobGasPerBlock < (env.blobs + n) * P.blobTxBlobGasPerBlob)
    (happly : applyTx env tx = .ok (receipt, env1))
    (hfail : receipt.status = false) :
    r.commitTransaction P applyTx tx true = .error "no revertible transaction failed" := by
  cases hbt : tx.isBlobTx with
  | false => simp [BidRuntime.commitTransaction, henv, hbt, happly, hfail]
  | true =>
    rcases hblob with hb | ⟨n, hsc, hle⟩
    · rw [hbt] at hb
      exact absurd hb (by simp)
    · simp [BidRuntime.commitTransaction, henv, hbt, hsc, hle, happly, hfail]

/-- If the replay loop, started at iteration `i` with runtime `r`,
reaches a transaction of the unrevertible set whose application yields a
failed receipt — at any replay position — the loop's verdict is the
commit error wrapped in the invalid-tx message. -/
theorem commitBidTxs_error_of_replayFailure (P : ChainParams) (cfg : SimConfig)
    (o : SimOracle) (bidTxLen : Nat) (txs : List Tx) :
    ∀ (i : Nat) (r : BidRuntime),
      replayUnrevertibleFailure P cfg o bidTxLen txs i r →
      (commitBidTxs P cfg o bidTxLen txs i r).2 =
        some "invalid tx in bid, no revertible transaction failed" := by
  induction txs with
  | nil =>
    intro i r hhit
    simp [replayUnrevertibleFailure] at hhit
  | cons tx rest ih =>
    intro i r hhit
    simp only [replayUnrevertibleFailure] at hhit
    obtain ⟨hint, hexit, htc, hcase⟩ := hhit
    rcases hcase with ⟨hunrev, env, receipt, env1, henv, hblob, happly, hfail⟩ |
      ⟨receipt, r1, hcommit, hnext⟩
    · have hc : r.commitTransaction P o.applyTx tx
          (decide (tx.hash ∈ r.bid.unRevertible)) =
            .error "no revertible transaction failed" := by
        rw [decide_eq_true hunrev]
        exact commitTransaction_unrevertible_failed P o.applyTx r tx env receipt env1
          henv hblob happly hfail
      simp [commitBidTxs, hint, hexit, htc, hc]
    · have hrec := ih (i + 1) (r1.checkValidatorBribe cfg.validatorBribeEOAs tx receipt) hnext
      simp [commitBidTxs, hint, hexit, htc, hcommit, hrec]

/-- Whenever the replay of the bid's transactions — started from the
prepared, gas-initialised runtime — reaches an unrevertible transaction
that yields a failed receipt, at any replay position, the body of
`simBid` aborts with the wrapped invalid-tx error, leaves the best-bid
table untouched and is unsuccessful. -/
theorem simBidBody_unrevertible_failed (P : ChainParams) (cfg : SimConfig) (o : SimOracle)
    (bestBid0 : BestBidMap) (r0 : BidRuntime) (payBidTx : Tx) (env0 : Env) (d : Int)
    (hprep : o.prepareWork = .ok env0)
    (hdelay : o.delay1 = some d) (hdpos : 0 < d)
    (hgas : ¬ gasPoolGas (initGasPool P env0) < r0.bid.gasUsed)
    (hhit : replayUnrevertibleFailure P cfg o r0.bid.txs.length r0.bid.txs 0
      ({ r0 with env := some (initGasPool P env0) })) :
    (simBidBody P cfg o bestBid0 r0 payBidTx).err =
        some "invalid tx in bid, no revertible transaction failed" ∧
    (simBidBody P cfg o bestBid0 r0 payBidTx).bestBid = bestBid0 ∧
    (simBidBody P cfg o bestBid0 r0 payBidTx).success = false := by
  have hres := commitBidTxs_error_of_replayFailure P cfg o r0.bid.txs.length r0.bid.txs 0
    ({ r0 with env := some (initGasPool P env0) }) hhit
  simp only [simBidBody, hprep, hdelay]
  rw [if_neg (not_le.mpr hdpos), if_neg hgas]
  rcases hpair : commitBidTxs P cfg o r0.bid.txs.length r0.bid.txs 0
      ({ r0 with env := some (initGasPool P env0) }) with ⟨r3, eOpt⟩
  rw [hpair] at hres
  simp at hres
  subst hres
  simp

/-- C7 counterexample: a concrete run in which an unrevertible transaction
produces a failed receipt; the error surfaced by `simBid` (logged and
reported to the builder) is the wrapped message
"invalid tx in bid, no revertible transaction failed", not the bare
"no revertible transaction failed" that the claim states. -/
theorem simBid_unrevertible_failed_counterexample :
    (simBid sampleParams sampleCfg failOracle sampleState (newBidRuntime sampleBid)).err =
        some "invalid tx in bid, no revertible transaction failed" ∧
    (simBid sampleParams sampleCfg failOracle sampleState (newBidRuntime sampleBid)).err ≠
        some "no revertible transaction failed" := by
  constructor
  · rfl
  · decide

/-- C7 (amended): if, while replaying a bid's transactions, a transaction
whose hash is in the bid's unrevertible set produces a receipt with
failure status — at any position of the replay — the simulation aborts;
the error surfaced (logged and reported to the builder through
`reportIssue`) is the commit error wrapped in the invalid-tx prefix,
"invalid tx in bid, no revertible transaction failed", and the best-bid
table is left unchanged. -/
theorem simBid_unrevertible_failed (P : ChainParams) (cfg : SimConfig) (o : SimOracle)
    (st : SimState) (r0 : BidRuntime) (env0 : Env) (d : Int)
    (hrun : cfg.running = true) (hrecv : cfg.bidReceiving = true)
    (hprep : o.prepareWork = .ok env0)
    (hdelay : o.delay1 = some d) (hdpos : 0 < d)
    (hgas : ¬ gasPoolGas (initGasPool P env0) < r0.bid.gasUsed)
    (hhit : replayUnrevertibleFailure P cfg o r0.bid.txs.length r0.bid.txs 0
      ({ r0 with env := some (initGasPool P env0) })) :
    (simBid P cfg o st r0).err =
        some "invalid tx in bid, no revertible transaction failed" ∧
    (simBid P cfg o st r0).state.bestBid = st.bestBid ∧
    (simBid P cfg o st r0).issueReported = true ∧
    (simBid P cfg o st r0).success = false := by
  have htne : r0.bid.txs ≠ [] := by
    intro hnil
    rw [hnil] at hhit
    simp [replayUnrevertibleFailure] at hhit
  have hlast := List.getLast?_eq_getLast_of_ne_nil htne
  have hcond : ¬ (cfg.running = false ∨ cfg.bidReceiving = false) := by
    simp [hrun, hrecv]
  have hbody := simBidBody_unrevertible_failed P cfg o st.bestBid r0
    (r0.bid.txs.getLast htne) env0 d hprep hdelay hdpos hgas hhit
  simp only [simBid, if_neg hcond, hlast]
  exact ⟨hbody.1, hbody.2.1, by simp [hbody.1], hbody.2.2⟩

/-- C7 witness: the amended theorem applied to a run whose unrevertible
transaction fails at the second replay position, after a revertible
transaction has been committed. -/
theorem simBid_unrevertible_failed_witness :
    (simBid sampleParams sampleCfg failOracle sampleState (newBidRuntime laterFailBid)).err =
        some "invalid tx in bid, no revertible transaction failed" ∧
    (simBid sampleParams sampleCfg failOracle sampleState
        (newBidRuntime laterFailBid)).state.bestBid = sampleState.bestBid :=
  ⟨(simBid_unrevertible_failed sampleParams sampleCfg failOracle sampleState
      (newBidRuntime laterFailBid) sampleEnv 1 rfl rfl rfl rfl (by decide) (by decide)
      ⟨rfl, rfl, by decide, Or.inr ⟨_, _, rfl,
        ⟨rfl, rfl, by decide,
          Or.inl ⟨by decide, _, _, _, rfl, Or.inl rfl, rfl, rfl⟩⟩⟩⟩).1,
   (simBid_unrevertible_failed sampleParams sampleCfg failOracle sampleState
      (newBidRuntime laterFailBid) sampleEnv 1 rfl rfl rfl rfl (by decide) (by decide)
      ⟨rfl, rfl, by decide, Or.inr ⟨_, _, rfl,
        ⟨rfl, rfl, by decide,
          Or.inl ⟨by decide, _, _, _, rfl, Or.inl rfl, rfl, rfl⟩⟩⟩⟩).2.1⟩

end BidSim
